import Mathlib

/-!
Shallow embedding of the computational core of `nba_dashboard.py`
(an injury-aware NBA betting dashboard).

Python floats are modelled as `ℚ` (all operations in the embedded code are
field operations, so the real-number semantics is exact); Python ints as
`ℤ`/`ℕ`; Python dicts keyed by player name as association lists
`List (String × ℚ)` with first-occurrence lookup and in-place update,
mirroring `dict.get(k, default)` / `d[k] = v` / `k in d` semantics.
A Python expression that raises an exception is modelled with `Except`.
-/

namespace NbaDashboard

/-- Failure that can arise from the odds-conversion code: either the raw
`ZeroDivisionError` Python raises on `100.0 / abs(0)`, or the `InvalidOdds`
application-level error the specification describes (the embedding keeps
both constructors so that statements can distinguish them). -/
inductive OddsFailure where
  | zeroDivisionError
  | invalidOdds
deriving DecidableEq, Repr

/-- Embedding of `american_to_profit` (`nba_dashboard.py:15-18`):
`if odds > 0: return odds / 100.0` then `return 100.0 / abs(odds)`.
The second branch raises `ZeroDivisionError` exactly when `abs(odds) = 0`. -/
def american_to_profit (odds : ℤ) : Except OddsFailure ℚ :=
  if 0 < odds then Except.ok ((odds : ℚ) / 100)
  else if |odds| = 0 then Except.error OddsFailure.zeroDivisionError
  else Except.ok (100 / (|odds| : ℚ))

/-- Embedding of `calculate_ev` (`nba_dashboard.py:20-22`):
`profit = american_to_profit(odds); return (prob * profit) - (1 - prob)`. -/
def calculate_ev (prob : ℚ) (odds : ℤ) : Except OddsFailure ℚ :=
  (american_to_profit odds).map (fun profit => prob * profit - (1 - prob))

/-- Embedding of `get_team_sd` (`nba_dashboard.py:24-26`). -/
def get_team_sd (mean_points : ℚ) : ℚ :=
  11 * (mean_points / 110)

/-- A team rating record (`team_ratings.json` entries; default at
`nba_dashboard.py:45`). `defense` embeds the Python key `"def"`. -/
structure TeamRating where
  off : ℚ
  defense : ℚ
  pace : ℚ
  volatility : ℚ
deriving DecidableEq, Repr

/-- The default team rating `{"off": 114, "def": 114, "pace": 100,
"volatility": 1.0}` (`nba_dashboard.py:45`). -/
def default_team : TeamRating :=
  { off := 114, defense := 114, pace := 100, volatility := 1 }

/-- Embedding of the module-level team mean projection
(`nba_dashboard.py:84-93`), returning `(home_mean, away_mean)`:

    avg_pace = (away_data["pace"] + home_data["pace"]) / 2.0
    away_mean = (away.off/114) * (home.def/114) * 112
    home_mean = (home.off/114) * (away.def/114) * 112
    away_mean *= avg_pace / 100 ; home_mean *= avg_pace / 100
    home_mean *= 1.025 ; away_mean *= 0.975
-/
def game_means (away_data home_data : TeamRating) : ℚ × ℚ :=
  let avg_pace := (away_data.pace + home_data.pace) / 2
  let away_mean := (away_data.off / 114) * (home_data.defense / 114) * 112
  let home_mean := (home_data.off / 114) * (away_data.defense / 114) * 112
  let away_mean := away_mean * (avg_pace / 100)
  let home_mean := home_mean * (avg_pace / 100)
  let home_mean := home_mean * 1.025
  let away_mean := away_mean * 0.975
  (home_mean, away_mean)

/-! ### Python-dict model (player-name keyed usage maps) -/

/-- A Python dict mapping player names to floats. -/
abbrev UsageDict := List (String × ℚ)

/-- `d.get(k, dflt)`: value at the first occurrence of key `k`, or `dflt`. -/
def dictGet (d : UsageDict) (k : String) (dflt : ℚ) : ℚ :=
  match d.find? (fun kv => kv.1 = k) with
  | some kv => kv.2
  | none => dflt

/-- `d[k] = v`: replace the value at the first occurrence of `k`, or append
the binding when `k` is absent. -/
def dictSet (d : UsageDict) (k : String) (v : ℚ) : UsageDict :=
  match d with
  | [] => [(k, v)]
  | kv :: rest => if kv.1 = k then (k, v) :: rest else kv :: dictSet rest k v

/-- `k in d`. -/
def dictMem (d : UsageDict) (k : String) : Prop :=
  k ∈ d.map Prod.fst

instance (d : UsageDict) (k : String) : Decidable (dictMem d k) := by
  unfold dictMem
  infer_instance

/-- Sum of all values of the dict (`sum(d.values())`). -/
def dictSum (d : UsageDict) : ℚ :=
  (d.map Prod.snd).sum

/-- All values of the dict are nonnegative. -/
def dictNonneg (d : UsageDict) : Prop :=
  ∀ kv ∈ d, (0 : ℚ) ≤ kv.2

/-- The loop pattern `for p in tp: d[p] = d.get(p, 0.0) + f(p)`, shared by the
two redistribution branches (`nba_dashboard.py:167-168` and `172-173`). -/
def addToEach (tp : List String) (f : String → ℚ) (d : UsageDict) : UsageDict :=
  tp.foldl (fun m p => dictSet m p (dictGet m p 0 + f p)) d

/-- Embedding of `redistribute_lost_usage` (`nba_dashboard.py:162-174`):
`current = [usage.get(p, 0.0) for p in team_players]; total = sum(current)`;
if `total <= 0`, add `lost_usage / max(1, len(team_players))` to every listed
player; otherwise add `lost_usage * (usage.get(p, 0.0) / total)` to each
player `p` (shares computed against the map as it was on entry, exactly as
the Python snapshot `current / total` does). -/
def redistribute_lost_usage (team_players : List String)
    (usage_map_local : UsageDict) (lost_usage : ℚ) : UsageDict :=
  let total : ℚ := (team_players.map (fun p => dictGet usage_map_local p 0)).sum
  if total ≤ 0 then
    addToEach team_players
      (fun _ => lost_usage / ((max 1 team_players.length : ℕ) : ℚ))
      usage_map_local
  else
    addToEach team_players
      (fun p => lost_usage * (dictGet usage_map_local p 0 / total))
      usage_map_local

/-! ### Injury designations (`nba_dashboard.py:121-148` and `176-195`) -/

/-- A designation status chosen in the injury manager UI. -/
inductive InjuryStatus where
  | statOut
  | statLimited
deriving DecidableEq, Repr

/-- One entry of `injury_settings`
(`{"status": status, "limited_pct": limited_pct}`). -/
structure InjurySetting where
  status : InjuryStatus
  limited_pct : ℚ
deriving DecidableEq, Repr

/-- The roster of the selected game: the `(player, team)` pairs of
`players_today`, with each team read from `player_ratings[p]["team"]`. -/
abbrev Roster := List (String × String)

/-- `player_ratings[pname]["team"]` for a roster player (first matching
entry; arbitrary default for a name outside the roster). -/
def teamOf (roster : Roster) (p : String) : String :=
  match roster.find? (fun e => e.1 = p) with
  | some e => e.2
  | none => ""

/-- `team_players_map.get(team, [])` (`nba_dashboard.py:158-160`): the roster
players of a team, in roster order. -/
def teamPlayers (roster : Roster) (t : String) : List String :=
  (roster.filter (fun e => e.2 = t)).map Prod.fst

/-- `[x for x in team_players_map.get(team, []) if x != pname]`
(`nba_dashboard.py:181`). -/
def teammatesOf (roster : Roster) (pname : String) : List String :=
  (teamPlayers roster (teamOf roster pname)).filter (fun x => x ≠ pname)

/-- One iteration of the injury loop (`nba_dashboard.py:176-195`) applied to
the designated player `pname` with setting `s`:
skip when `pname not in adjusted_usage`; for `Out`, zero the player's usage
and redistribute the lost amount to the teammates when there are any and the
loss is positive; for `Limited`, scale the player's usage by
`1 - limited_pct/100` and redistribute the lost portion likewise. -/
def applyInjury (roster : Roster) (usage : UsageDict) (pname : String)
    (s : InjurySetting) : UsageDict :=
  if ¬ dictMem usage pname then usage
  else
    let teammates := teammatesOf roster pname
    match s.status with
    | InjuryStatus.statOut =>
        let lost := dictGet usage pname 0
        let usage1 := dictSet usage pname 0
        if teammates ≠ [] ∧ 0 < lost then
          redistribute_lost_usage teammates usage1 lost
        else usage1
    | InjuryStatus.statLimited =>
        let pct := s.limited_pct / 100
        let orig := dictGet usage pname 0
        let lost := orig * pct
        let usage1 := dictSet usage pname (orig * (1 - pct))
        if teammates ≠ [] ∧ 0 < lost then
          redistribute_lost_usage teammates usage1 lost
        else usage1

/-- The full injury loop (`nba_dashboard.py:176-195`): the designations of
`injury_settings` applied in insertion order, each pass operating on the
output of the previous one. -/
def applyInjuries (roster : Roster) (usage : UsageDict)
    (settings : List (String × InjurySetting)) : UsageDict :=
  settings.foldl (fun acc d => applyInjury roster acc d.1 d.2) usage

/-! ### Player prop projection (`nba_dashboard.py:299-324`) -/

/-- Embedding of the per-player projection computed in the prop loop
(`nba_dashboard.py:304-324`): branch on the stat string (`pts`, `ast`,
`reb`, `3pm`, `PRA`, with `proj = base` as the fall-through), then
`proj *= off/114`, `proj *= pace/100`, then `proj *= 0.97` when the
back-to-back box is checked. -/
def player_proj (stat_choice : String) (base u off pace : ℚ) (b2b : Bool) : ℚ :=
  let proj :=
    if stat_choice = "pts" then base * (1 + u)
    else if stat_choice = "ast" then base * (1 + u * 0.7)
    else if stat_choice = "reb" then base * (1 + u * 0.25)
    else if stat_choice = "3pm" then base * (1 + u * 0.4)
    else if stat_choice = "PRA" then base * (1 + u * 0.6)
    else base
  let proj := proj * (off / 114)
  let proj := proj * (pace / 100)
  if b2b then proj * 0.97 else proj

/-- The stat kinds the projection loop handles specially, in source order
(`pts` = points, `reb` = rebounds, `ast` = assists, `3pm` = three-made,
`PRA` = points-rebounds-assists). -/
def supportedStats : List String :=
  ["pts", "reb", "ast", "3pm", "PRA"]

/-- Modelled from the claim wording, not from the source: the per-kind usage
weight table of the specification (1.0 points, 0.7 assists, 0.25 rebounds,
0.4 three-made, 0.6 points-rebounds-assists; 0 elsewhere). -/
def stat_weight_spec (stat_choice : String) : ℚ :=
  if stat_choice = "pts" then 1
  else if stat_choice = "ast" then 0.7
  else if stat_choice = "reb" then 0.25
  else if stat_choice = "3pm" then 0.4
  else if stat_choice = "PRA" then 0.6
  else 0

/-- Modelled from the claim wording, not from the source: the player stat
projection as the specification describes it —
`base * (1 + usage * stat_weight(kind))`, then the team-offense factor,
the pace factor, the home-court factor `1.02` when the player's team is
home, the back-to-back factor `0.97` when flagged, and the injury-impact
factor `1 - injury_impact_pct/100`. -/
def player_proj_spec (stat_choice : String) (base u off pace : ℚ)
    (is_home b2b : Bool) (injury_impact_pct : ℚ) : ℚ :=
  base * (1 + u * stat_weight_spec stat_choice) * (off / 114) * (pace / 100) *
    (if is_home then 1.02 else 1) * (if b2b then 0.97 else 1) *
    (1 - injury_impact_pct / 100)

theorem dictGet_nil (q : String) (dflt : ℚ) : dictGet [] q dflt = dflt :=
  rfl

theorem dictGet_cons (kv : String × ℚ) (rest : UsageDict) (q : String)
    (dflt : ℚ) :
    dictGet (kv :: rest) q dflt = if kv.1 = q then kv.2 else dictGet rest q dflt := by
  by_cases h : kv.1 = q <;> simp [dictGet, List.find?, h]

theorem dictGet_dictSet_self (d : UsageDict) (k : String) (v : ℚ) (dflt : ℚ) :
    dictGet (dictSet d k v) k dflt = v := by
  induction d with
  | nil => simp [dictGet, dictSet, List.find?]
  | cons kv rest ih =>
    by_cases h : kv.1 = k
    · simp [dictSet, h, dictGet_cons]
    · simp [dictSet, h, dictGet_cons, ih]

theorem dictGet_dictSet_ne (d : UsageDict) (k q : String) (v : ℚ) (dflt : ℚ)
    (h : q ≠ k) : dictGet (dictSet d k v) q dflt = dictGet d q dflt := by
  induction d with
  | nil => simp [dictSet, dictGet_cons, dictGet_nil, Ne.symm h]
  | cons kv rest ih =>
    by_cases hk : kv.1 = k
    · have hq : kv.1 ≠ q := by rw [hk]; exact Ne.symm h
      simp [dictSet, hk, dictGet_cons, hq, Ne.symm h]
    · simp [dictSet, hk, dictGet_cons, ih]

theorem dictSum_dictSet (d : UsageDict) (k : String) (v : ℚ) :
    dictSum (dictSet d k v) = dictSum d + v - dictGet d k 0 := by
  induction d with
  | nil => simp [dictSum, dictSet, dictGet, List.find?]
  | cons kv rest ih =>
    by_cases h : kv.1 = k
    · simp [dictSum, dictSet, dictGet, h, List.find?]
      ring
    · simp only [dictSet, h, if_neg, ite_false]
      simp only [dictSum, List.map_cons, List.sum_cons] at ih ⊢
      rw [ih]
      have : dictGet (kv :: rest) k 0 = dictGet rest k 0 := by
        simp [dictGet, List.find?, h]
      rw [this]
      ring

theorem dictMem_dictSet (d : UsageDict) (k q : String) (v : ℚ) :
    dictMem (dictSet d k v) q ↔ q = k ∨ dictMem d q := by
  induction d with
  | nil => simp [dictMem, dictSet]
  | cons kv rest ih =>
    by_cases h : kv.1 = k
    · subst h
      simp [dictMem, dictSet]
    · simp only [dictSet, h, ite_false]
      simp only [dictMem, List.map_cons, List.mem_cons] at ih ⊢
      rw [ih]
      tauto

theorem dictNonneg_dictSet (d : UsageDict) (k : String) (v : ℚ)
    (hd : dictNonneg d) (hv : 0 ≤ v) : dictNonneg (dictSet d k v) := by
  induction d with
  | nil =>
    intro kv hkv
    simp only [dictSet, List.mem_singleton] at hkv
    simp [hkv, hv]
  | cons kv0 rest ih =>
    intro kv hkv
    by_cases h : kv0.1 = k
    · simp only [dictSet, h, ite_true, List.mem_cons] at hkv
      rcases hkv with h1 | h2
      · simp [h1, hv]
      · exact hd kv (List.mem_cons_of_mem _ h2)
    · simp only [dictSet, h, ite_false, List.mem_cons] at hkv
      rcases hkv with h1 | h2
      · exact hd kv (h1 ▸ List.mem_cons_self _ _)
      · exact ih (fun x hx => hd x (List.mem_cons_of_mem _ hx)) kv h2

theorem dictGet_nonneg (d : UsageDict) (k : String) (hd : dictNonneg d) :
    0 ≤ dictGet d k 0 := by
  unfold dictGet
  cases hfind : d.find? (fun kv => kv.1 = k) with
  | none => simp
  | some kv => exact hd kv (List.mem_of_find?_eq_some hfind)

theorem addToEach_nil (f : String → ℚ) (d : UsageDict) : addToEach [] f d = d :=
  rfl

theorem addToEach_cons (a : String) (tp : List String) (f : String → ℚ)
    (d : UsageDict) :
    addToEach (a :: tp) f d = addToEach tp f (dictSet d a (dictGet d a 0 + f a)) :=
  rfl

theorem dictSum_addToEach (tp : List String) (f : String → ℚ) (d : UsageDict) :
    dictSum (addToEach tp f d) = dictSum d + (tp.map f).sum := by
  induction tp generalizing d with
  | nil => simp [addToEach_nil]
  | cons a tp ih =>
    rw [addToEach_cons, ih, dictSum_dictSet]
    simp
    ring

theorem dictGet_addToEach_of_not_mem (tp : List String) (f : String → ℚ)
    (d : UsageDict) (q : String) (dflt : ℚ) (hq : q ∉ tp) :
    dictGet (addToEach tp f d) q dflt = dictGet d q dflt := by
  induction tp generalizing d with
  | nil => rfl
  | cons a tp ih =>
    rw [addToEach_cons, ih _ (fun h => hq (List.mem_cons_of_mem _ h)),
      dictGet_dictSet_ne]
    exact fun h => hq (h ▸ List.mem_cons_self _ _)

theorem dictGet_addToEach_of_mem (tp : List String) (f : String → ℚ)
    (d : UsageDict) (p : String) (hnd : tp.Nodup) (hp : p ∈ tp) :
    dictGet (addToEach tp f d) p 0 = dictGet d p 0 + f p := by
  induction tp generalizing d with
  | nil => cases hp
  | cons a tp ih =>
    rcases List.mem_cons.mp hp with h | h
    · subst h
      rw [addToEach_cons,
        dictGet_addToEach_of_not_mem _ _ _ _ _ (List.Nodup.not_mem hnd),
        dictGet_dictSet_self]
    · have hpa : p ≠ a := fun heq => (List.Nodup.not_mem hnd) (heq ▸ h)
      rw [addToEach_cons, ih _ (List.Nodup.of_cons hnd) h, dictGet_dictSet_ne]
      exact hpa

theorem dictMem_addToEach (tp : List String) (f : String → ℚ) (d : UsageDict)
    (q : String) : dictMem (addToEach tp f d) q ↔ q ∈ tp ∨ dictMem d q := by
  induction tp generalizing d with
  | nil => simp [addToEach_nil]
  | cons a tp ih =>
    rw [addToEach_cons, ih, dictMem_dictSet]
    simp only [List.mem_cons]
    tauto

theorem dictNonneg_addToEach (tp : List String) (f : String → ℚ) (d : UsageDict)
    (hd : dictNonneg d) (hf : ∀ p ∈ tp, 0 ≤ f p) :
    dictNonneg (addToEach tp f d) := by
  induction tp generalizing d with
  | nil => exact hd
  | cons a tp ih =>
    rw [addToEach_cons]
    exact ih _
      (dictNonneg_dictSet _ _ _ hd
        (add_nonneg (dictGet_nonneg _ _ hd) (hf a (List.mem_cons_self _ _))))
      (fun p hp => hf p (List.mem_cons_of_mem _ hp))

theorem dictGet_of_not_mem (d : UsageDict) (k : String) (h : ¬ dictMem d k) :
    dictGet d k 0 = 0 := by
  unfold dictGet
  cases hfind : d.find? (fun kv => kv.1 = k) with
  | none => simp
  | some kv =>
    exfalso
    apply h
    have hmem := List.mem_of_find?_eq_some hfind
    have hk := List.find?_some hfind
    simp only [decide_eq_true_eq] at hk
    exact hk ▸ List.mem_map_of_mem Prod.fst hmem

theorem dictSum_redistribute (tp : List String) (d : UsageDict) (lost : ℚ)
    (htp : tp ≠ []) :
    dictSum (redistribute_lost_usage tp d lost) = dictSum d + lost := by
  have hlen : 0 < tp.length := List.length_pos.mpr htp
  rw [redistribute_lost_usage]
  by_cases htot : (tp.map (fun p => dictGet d p 0)).sum ≤ 0
  · rw [if_pos htot, dictSum_addToEach]
    have hmax : max 1 tp.length = tp.length := max_eq_right hlen
    have hlen' : ((tp.length : ℕ) : ℚ) ≠ 0 := Nat.cast_ne_zero.mpr hlen.ne'
    congr 1
    rw [hmax]
    rw [List.map_const', List.sum_replicate, nsmul_eq_mul]
    field_simp
  · rw [if_neg htot, dictSum_addToEach]
    have htot' : (tp.map (fun p => dictGet d p 0)).sum ≠ 0 := fun h => htot (le_of_eq h)
    have hfun : (fun p => lost * (dictGet d p 0 / (tp.map (fun p => dictGet d p 0)).sum))
        = fun p => (lost / (tp.map (fun p => dictGet d p 0)).sum) * dictGet d p 0 := by
      funext p
      ring
    rw [hfun, List.sum_map_mul_left]
    rw [div_mul_eq_mul_div, mul_div_assoc, div_self htot', mul_one]

theorem dictGet_redistribute_of_not_mem (tp : List String) (d : UsageDict)
    (lost : ℚ) (q : String) (dflt : ℚ) (hq : q ∉ tp) :
    dictGet (redistribute_lost_usage tp d lost) q dflt = dictGet d q dflt := by
  rw [redistribute_lost_usage]
  split
  · exact dictGet_addToEach_of_not_mem _ _ _ _ _ hq
  · exact dictGet_addToEach_of_not_mem _ _ _ _ _ hq

theorem dictMem_redistribute (tp : List String) (d : UsageDict) (lost : ℚ)
    (q : String) :
    dictMem (redistribute_lost_usage tp d lost) q ↔ q ∈ tp ∨ dictMem d q := by
  rw [redistribute_lost_usage]
  split
  · exact dictMem_addToEach _ _ _ _
  · exact dictMem_addToEach _ _ _ _

theorem dictNonneg_redistribute (tp : List String) (d : UsageDict) (lost : ℚ)
    (hd : dictNonneg d) (hl : 0 ≤ lost) :
    dictNonneg (redistribute_lost_usage tp d lost) := by
  rw [redistribute_lost_usage]
  split
  · refine dictNonneg_addToEach _ _ _ hd (fun p _ => ?_)
    positivity
  · rename_i htot
    push_neg at htot
    refine dictNonneg_addToEach _ _ _ hd (fun p _ => ?_)
    have h1 := dictGet_nonneg d p hd
    positivity

theorem applyInjury_of_not_mem (roster : Roster) (usage : UsageDict)
    (pname : String) (s : InjurySetting) (h : ¬ dictMem usage pname) :
    applyInjury roster usage pname s = usage := by
  simp [applyInjury, h]

theorem not_mem_teammatesOf (roster : Roster) (pname : String) :
    pname ∉ teammatesOf roster pname := by
  intro h
  have h2 := (List.mem_filter.mp h).2
  simp at h2

theorem dictSum_applyInjury (roster : Roster) (usage : UsageDict)
    (pname : String) (s : InjurySetting)
    (hnn : dictNonneg usage)
    (hpct : s.status = InjuryStatus.statLimited →
      0 ≤ s.limited_pct ∧ s.limited_pct ≤ 100)
    (htm : teammatesOf roster pname ≠ []) :
    dictSum (applyInjury roster usage pname s) = dictSum usage := by
  by_cases hmem : dictMem usage pname
  · obtain ⟨status, lp⟩ := s
    cases status with
    | statOut =>
      simp only [applyInjury, hmem, not_true_eq_false, if_false]
      by_cases hlost : 0 < dictGet usage pname 0
      · rw [if_pos ⟨htm, hlost⟩, dictSum_redistribute _ _ _ htm, dictSum_dictSet]
        ring
      · rw [if_neg (fun hand => hlost hand.2), dictSum_dictSet]
        have h0 : dictGet usage pname 0 = 0 :=
          le_antisymm (not_lt.mp hlost) (dictGet_nonneg _ _ hnn)
        rw [h0]
        ring
    | statLimited =>
      obtain ⟨hlp0, _⟩ := hpct rfl
      simp only [applyInjury, hmem, not_true_eq_false, if_false]
      by_cases hlost : 0 < dictGet usage pname 0 * (lp / 100)
      · rw [if_pos ⟨htm, hlost⟩, dictSum_redistribute _ _ _ htm, dictSum_dictSet]
        ring
      · rw [if_neg (fun hand => hlost hand.2), dictSum_dictSet]
        have horig : 0 ≤ dictGet usage pname 0 := dictGet_nonneg _ _ hnn
        have h0 : dictGet usage pname 0 * (lp / 100) = 0 :=
          le_antisymm (not_lt.mp hlost) (by positivity)
        nlinarith [h0]
  · rw [applyInjury_of_not_mem _ _ _ _ hmem]

theorem dictNonneg_applyInjury (roster : Roster) (usage : UsageDict)
    (pname : String) (s : InjurySetting)
    (hnn : dictNonneg usage)
    (hpct : s.status = InjuryStatus.statLimited →
      0 ≤ s.limited_pct ∧ s.limited_pct ≤ 100) :
    dictNonneg (applyInjury roster usage pname s) := by
  by_cases hmem : dictMem usage pname
  · obtain ⟨status, lp⟩ := s
    cases status with
    | statOut =>
      simp only [applyInjury, hmem, not_true_eq_false, if_false]
      split
      · rename_i hand
        exact dictNonneg_redistribute _ _ _
          (dictNonneg_dictSet _ _ _ hnn le_rfl) hand.2.le
      · exact dictNonneg_dictSet _ _ _ hnn le_rfl
    | statLimited =>
      obtain ⟨hlp0, hlp100⟩ := hpct rfl
      have hval : 0 ≤ dictGet usage pname 0 * (1 - lp / 100) :=
        mul_nonneg (dictGet_nonneg _ _ hnn) (by linarith)
      simp only [applyInjury, hmem, not_true_eq_false, if_false]
      split
      · rename_i hand
        exact dictNonneg_redistribute _ _ _
          (dictNonneg_dictSet _ _ _ hnn hval) hand.2.le
      · exact dictNonneg_dictSet _ _ _ hnn hval
  · rw [applyInjury_of_not_mem _ _ _ _ hmem]
    exact hnn

theorem dictGet_applyInjury_of_other (roster : Roster) (usage : UsageDict)
    (pname : String) (s : InjurySetting) (q : String)
    (hq1 : q ≠ pname) (hq2 : q ∉ teamPlayers roster (teamOf roster pname)) :
    dictGet (applyInjury roster usage pname s) q 0 = dictGet usage q 0 := by
  have hq3 : q ∉ teammatesOf roster pname :=
    fun h => hq2 (List.mem_of_mem_filter h)
  by_cases hmem : dictMem usage pname
  · obtain ⟨status, lp⟩ := s
    cases status with
    | statOut =>
      simp only [applyInjury, hmem, not_true_eq_false, if_false]
      split
      · rw [dictGet_redistribute_of_not_mem _ _ _ _ _ hq3,
          dictGet_dictSet_ne _ _ _ _ _ hq1]
      · rw [dictGet_dictSet_ne _ _ _ _ _ hq1]
    | statLimited =>
      simp only [applyInjury, hmem, not_true_eq_false, if_false]
      split
      · rw [dictGet_redistribute_of_not_mem _ _ _ _ _ hq3,
          dictGet_dictSet_ne _ _ _ _ _ hq1]
      · rw [dictGet_dictSet_ne _ _ _ _ _ hq1]
  · rw [applyInjury_of_not_mem _ _ _ _ hmem]

theorem dictGet_applyInjury_self_out (roster : Roster) (usage : UsageDict)
    (pname : String) (s : InjurySetting)
    (hs : s.status = InjuryStatus.statOut) :
    dictGet (applyInjury roster usage pname s) pname 0 = 0 := by
  by_cases hmem : dictMem usage pname
  · obtain ⟨status, lp⟩ := s
    cases hs
    simp only [applyInjury, hmem, not_true_eq_false, if_false]
    split
    · rw [dictGet_redistribute_of_not_mem _ _ _ _ _
        (not_mem_teammatesOf roster pname), dictGet_dictSet_self]
    · rw [dictGet_dictSet_self]
  · rw [applyInjury_of_not_mem _ _ _ _ hmem]
    exact dictGet_of_not_mem _ _ hmem

theorem dictSum_applyInjuries (roster : Roster) (usage : UsageDict)
    (settings : List (String × InjurySetting))
    (hnn : dictNonneg usage)
    (hpct : ∀ d ∈ settings, d.2.status = InjuryStatus.statLimited →
      0 ≤ d.2.limited_pct ∧ d.2.limited_pct ≤ 100)
    (htm : ∀ d ∈ settings, teammatesOf roster d.1 ≠ []) :
    dictSum (applyInjuries roster usage settings) = dictSum usage := by
  induction settings generalizing usage with
  | nil => rfl
  | cons d ds ih =>
    have step : applyInjuries roster usage (d :: ds)
        = applyInjuries roster (applyInjury roster usage d.1 d.2) ds := rfl
    rw [step,
      ih (applyInjury roster usage d.1 d.2)
        (dictNonneg_applyInjury _ _ _ _ hnn (hpct d (List.mem_cons_self _ _)))
        (fun e he => hpct e (List.mem_cons_of_mem _ he))
        (fun e he => htm e (List.mem_cons_of_mem _ he)),
      dictSum_applyInjury _ _ _ _ hnn (hpct d (List.mem_cons_self _ _))
        (htm d (List.mem_cons_self _ _))]

theorem player_proj_eq (stat_choice : String) (base u off pace : ℚ)
    (b2b : Bool) (h : stat_choice ∈ supportedStats) :
    player_proj stat_choice base u off pace b2b
      = base * (1 + u * stat_weight_spec stat_choice) * (off / 114)
        * (pace / 100) * (if b2b then 0.97 else 1) := by
  simp only [supportedStats, List.mem_cons, List.not_mem_nil, or_false] at h
  rcases h with rfl | rfl | rfl | rfl | rfl <;> cases b2b <;>
    (simp [player_proj, stat_weight_spec]; try ring)

/-! ### Claim theorems -/

/-- C3: for every probability `prob` and every nonzero American odds value,
`calculate_ev` returns `prob * profit(odds) - (1 - prob)`, where
`profit(odds)` is `odds/100` for positive odds and `100/|odds|` for
negative odds. -/
theorem C3_calculate_ev_formula (prob : ℚ) (odds : ℤ) (h : odds ≠ 0) :
    calculate_ev prob odds =
      Except.ok (prob * (if 0 < odds then (odds : ℚ) / 100 else 100 / |(odds : ℚ)|)
        - (1 - prob)) := by
  by_cases hpos : 0 < odds
  · simp [calculate_ev, american_to_profit, hpos, Except.map]
  · have habs : ¬ |odds| = 0 := fun h0 => h (abs_eq_zero.mp h0)
    simp only [calculate_ev, american_to_profit, hpos, if_false, habs,
      Except.map, if_neg]

/-- Witness for C3 at `prob = 1/2`, `odds = -110`:
the expected value is `1/2 * (100/110) - 1/2 = -1/22`. -/
theorem C3_calculate_ev_formula_witness :
    calculate_ev (1/2) (-110) = Except.ok (-1/22) := by
  rw [C3_calculate_ev_formula (1/2) (-110) (by decide)]
  norm_num

/-- C4 counterexample: at `odds = 0` the conversion hits `100.0 / abs(0)`,
i.e. the raw `ZeroDivisionError`, not the distinguishable `InvalidOdds`
application error the claim asserts. -/
theorem C4_counterexample :
    american_to_profit 0 = Except.error OddsFailure.zeroDivisionError ∧
      american_to_profit 0 ≠ Except.error OddsFailure.invalidOdds := by
  refine ⟨by simp [american_to_profit], ?_⟩
  simp [american_to_profit]

/-- C4 (amended): at `odds = 0` the conversion fails, but with an unguarded
`ZeroDivisionError` rather than a dedicated `InvalidOdds` error; for every
nonzero odds value it succeeds with the usual profit value. -/
theorem C4_zero_is_division_error (odds : ℤ) :
    american_to_profit odds =
      if odds = 0 then Except.error OddsFailure.zeroDivisionError
      else Except.ok (if 0 < odds then (odds : ℚ) / 100 else 100 / |(odds : ℚ)|) := by
  by_cases h0 : odds = 0
  · subst h0
    simp [american_to_profit]
  · rw [if_neg h0]
    by_cases hpos : 0 < odds
    · simp [american_to_profit, hpos]
    · have habs : ¬ |odds| = 0 := fun hc => h0 (abs_eq_zero.mp hc)
      simp only [american_to_profit, hpos, if_false, habs, if_neg]

/-- C5: the module-level team mean projections equal
`(off_us/114) * (def_opp/114) * 112 * (avg_pace/100)` with
`avg_pace = (pace_away + pace_home)/2`, the home side then multiplied by
`1.025` and the away side by `0.975`. -/
theorem C5_team_mean_formula (away_data home_data : TeamRating) :
    (game_means away_data home_data).1
      = (home_data.off / 114) * (away_data.defense / 114) * 112
        * (((away_data.pace + home_data.pace) / 2) / 100) * 1.025
    ∧ (game_means away_data home_data).2
      = (away_data.off / 114) * (home_data.defense / 114) * 112
        * (((away_data.pace + home_data.pace) / 2) / 100) * 0.975 := by
  constructor
  · simp only [game_means]
  · simp only [game_means]

/-- C6 counterexample: with home rating `{off:118, def:110, pace:102}` and
away rating `{off:112, def:113, pace:98}`, the home-court-adjusted home mean
is `1913429/16245 ≈ 117.79`, which is not approximately `118.5` (it differs
by more than `0.5`). -/
theorem C6_counterexample :
    |(game_means ⟨112, 113, 98, 1⟩ ⟨118, 110, 102, 1⟩).1 - 118.5| > 1/2 := by
  rw [gt_iff_lt, lt_abs]
  right
  norm_num [game_means]

/-- C6 (amended): for home team rating `{off:118, def:110, pace:102,
volatility:1.0}` and away `{off:112, def:113, pace:98, volatility:1.0}`, the
home-court-adjusted means are exactly `1913429/16245 ≈ 117.79` (home) and
`112112/1083 ≈ 103.52` (away), each within `0.01` of those decimals. -/
theorem C6_example_means :
    (game_means ⟨112, 113, 98, 1⟩ ⟨118, 110, 102, 1⟩).1 = 1913429/16245
    ∧ (game_means ⟨112, 113, 98, 1⟩ ⟨118, 110, 102, 1⟩).2 = 112112/1083
    ∧ |(game_means ⟨112, 113, 98, 1⟩ ⟨118, 110, 102, 1⟩).1 - 117.79| < 1/100
    ∧ |(game_means ⟨112, 113, 98, 1⟩ ⟨118, 110, 102, 1⟩).2 - 103.52| < 1/100 := by
  refine ⟨by norm_num [game_means], by norm_num [game_means], ?_, ?_⟩
  · rw [abs_sub_lt_iff]
    constructor <;> norm_num [game_means]
  · rw [abs_sub_lt_iff]
    constructor <;> norm_num [game_means]

/-- C1 counterexample: a roster whose designated player has no teammates
violates the conservation claim as stated: with roster `[("A","T")]`, usage
`{"A": 0.3}` and the single designation `A -> Out`, the player's usage is
dropped (nobody is there to receive it), so the total falls from `0.3` to
`0`, far outside the `1e-9` tolerance. -/
theorem C1_counterexample :
    |dictSum (applyInjuries [("A", "T")] [("A", 3/10)]
        [("A", ⟨InjuryStatus.statOut, 0⟩)])
      - dictSum [("A", (3/10 : ℚ))]| > 1/1000000000 := by
  have h : applyInjuries [("A", "T")] [("A", 3/10)]
      [("A", ⟨InjuryStatus.statOut, 0⟩)] = [("A", 0)] := by
    decide
  rw [h, gt_iff_lt, lt_abs]
  right
  norm_num [dictSum]

/-- C1 (amended): provided every usage value is nonnegative, every `Limited`
designation carries a reduction percentage in `[0, 100]`, and every
designated player has at least one teammate on the roster, any sequence of
injury designations preserves the total usage exactly (in particular to
within `1e-9`); and a single `Out` pass always leaves the designated
player's usage entry at exactly `0`. -/
theorem C1_sum_conserved (roster : Roster) (usage : UsageDict)
    (settings : List (String × InjurySetting))
    (hnn : dictNonneg usage)
    (hpct : ∀ d ∈ settings, d.2.status = InjuryStatus.statLimited →
      0 ≤ d.2.limited_pct ∧ d.2.limited_pct ≤ 100)
    (htm : ∀ d ∈ settings, teammatesOf roster d.1 ≠ []) :
    |dictSum (applyInjuries roster usage settings) - dictSum usage|
        ≤ 1/1000000000
    ∧ ∀ pname s, s.status = InjuryStatus.statOut →
        dictGet (applyInjury roster usage pname s) pname 0 = 0 := by
  constructor
  · rw [dictSum_applyInjuries roster usage settings hnn hpct htm]
    simp
  · exact fun pname s hs => dictGet_applyInjury_self_out roster usage pname s hs

/-- Witness for C1 (amended) on a two-player roster with one `Out`
designation. -/
theorem C1_sum_conserved_witness :
    |dictSum (applyInjuries [("A", "T"), ("B", "T")]
        [("A", 3/10), ("B", 1/5)] [("A", ⟨InjuryStatus.statOut, 0⟩)])
      - dictSum [("A", (3/10 : ℚ)), ("B", 1/5)]| ≤ 1/1000000000
    ∧ ∀ pname s, s.status = InjuryStatus.statOut →
        dictGet (applyInjury [("A", "T"), ("B", "T")]
          [("A", 3/10), ("B", 1/5)] pname s) pname 0 = 0 :=
  C1_sum_conserved [("A", "T"), ("B", "T")] [("A", 3/10), ("B", 1/5)]
    [("A", ⟨InjuryStatus.statOut, 0⟩)]
    (by
      intro kv hkv
      simp only [List.mem_cons, List.not_mem_nil, or_false] at hkv
      rcases hkv with rfl | rfl <;> norm_num)
    (by
      intro e he hs
      simp only [List.mem_cons, List.not_mem_nil, or_false] at he
      subst he
      simp at hs)
    (by
      intro e he
      simp only [List.mem_cons, List.not_mem_nil, or_false] at he
      subst he
      decide)

/-- C7: when the listed teammates' usages sum to `0` or less, the
redistribution step falls back to an equal split: every listed player (for a
duplicate-free list, as the injury loop always passes) gains exactly
`lost / n`, and the gains sum to the lost amount. -/
theorem C7_equal_split (tp : List String) (d : UsageDict) (lost : ℚ)
    (htot : (tp.map (fun p => dictGet d p 0)).sum ≤ 0)
    (htp : tp ≠ []) (hnd : tp.Nodup) :
    (∀ p ∈ tp, dictGet (redistribute_lost_usage tp d lost) p 0
        = dictGet d p 0 + lost / (tp.length : ℚ))
    ∧ dictSum (redistribute_lost_usage tp d lost) = dictSum d + lost := by
  constructor
  · intro p hp
    have hmax : max 1 tp.length = tp.length :=
      max_eq_right (List.length_pos.mpr htp)
    simp only [redistribute_lost_usage, if_pos htot]
    rw [dictGet_addToEach_of_mem tp _ d p hnd hp, hmax]
  · exact dictSum_redistribute tp d lost htp

/-- Witness for C7: two teammates both at usage `0`, lost amount `1/2`;
each receives `1/4` and the total grows by exactly `1/2`. -/
theorem C7_equal_split_witness :
    (∀ p ∈ ["B", "C"], dictGet (redistribute_lost_usage ["B", "C"]
        [("B", 0), ("C", 0)] (1/2)) p 0
      = dictGet [("B", (0 : ℚ)), ("C", 0)] p 0
        + (1/2) / ((["B", "C"] : List String).length : ℚ))
    ∧ dictSum (redistribute_lost_usage ["B", "C"] [("B", 0), ("C", 0)] (1/2))
      = dictSum [("B", (0 : ℚ)), ("C", 0)] + 1/2 :=
  C7_equal_split ["B", "C"] [("B", 0), ("C", 0)] (1/2)
    (by norm_num [dictGet_cons]) (by decide) (by decide)

/-- C10: one pass of the injury loop only ever changes the designated
player's entry and the entries of that player's own-team teammates — any
player that is neither the designated player nor on the designated player's
team keeps its usage value — and a designation naming a player absent from
the usage map leaves the map entirely unchanged. -/
theorem C10_frame (roster : Roster) (usage : UsageDict) (pname : String)
    (s : InjurySetting) :
    (∀ q, q ≠ pname → q ∉ teamPlayers roster (teamOf roster pname) →
      dictGet (applyInjury roster usage pname s) q 0 = dictGet usage q 0)
    ∧ (¬ dictMem usage pname → applyInjury roster usage pname s = usage) :=
  ⟨fun q hq1 hq2 => dictGet_applyInjury_of_other roster usage pname s q hq1 hq2,
   fun h => applyInjury_of_not_mem roster usage pname s h⟩

/-- Witness for C10 on a concrete two-team roster: marking `A` (team `T1`)
out leaves `C` (team `T2`) untouched, and designating the absent name `Z`
changes nothing. -/
theorem C10_frame_witness :
    dictGet (applyInjury [("A", "T1"), ("B", "T1"), ("C", "T2")]
        [("A", 3/10), ("B", 1/5), ("C", 1/4)] "A"
        ⟨InjuryStatus.statOut, 0⟩) "C" 0
      = dictGet [("A", (3/10 : ℚ)), ("B", 1/5), ("C", 1/4)] "C" 0
    ∧ applyInjury [("A", "T1"), ("B", "T1"), ("C", "T2")]
        [("A", 3/10), ("B", 1/5), ("C", 1/4)] "Z" ⟨InjuryStatus.statOut, 0⟩
      = [("A", 3/10), ("B", 1/5), ("C", 1/4)] :=
  ⟨(C10_frame [("A", "T1"), ("B", "T1"), ("C", "T2")]
      [("A", 3/10), ("B", 1/5), ("C", 1/4)] "A" ⟨InjuryStatus.statOut, 0⟩).1
      "C" (by decide) (by decide),
   (C10_frame [("A", "T1"), ("B", "T1"), ("C", "T2")]
      [("A", 3/10), ("B", 1/5), ("C", 1/4)] "Z" ⟨InjuryStatus.statOut, 0⟩).2
      (by decide)⟩

/-- C2 counterexample: for a home player the claimed formula includes a
home-court factor `1.02`, but the code applies no such factor (nor an
injury-impact factor): at `kind = "pts"`, `base = 25`, `usage = 0.3`,
`off = 116`, `pace = 101`, not back-to-back, home, `injury_pct = 0`, the
code's projection differs from the claimed one. -/
theorem C2_counterexample :
    player_proj "pts" 25 (3/10) 116 101 false
      ≠ player_proj_spec "pts" 25 (3/10) 116 101 true false 0 := by
  norm_num [player_proj, player_proj_spec, stat_weight_spec]

/-- C2 (amended): for every supported stat kind the projection equals
`base * (1 + usage * stat_weight(kind))` multiplied by the team-offense
factor `off/114`, the pace factor `pace/100`, and the back-to-back factor
`0.97` when flagged — with no home-court factor and no separate
injury-impact factor (injuries act only through the usage value). -/
theorem C2_player_proj_formula (stat_choice : String) (base u off pace : ℚ)
    (b2b : Bool) (h : stat_choice ∈ supportedStats) :
    player_proj stat_choice base u off pace b2b
      = base * (1 + u * stat_weight_spec stat_choice) * (off / 114)
        * (pace / 100) * (if b2b then 0.97 else 1) :=
  player_proj_eq stat_choice base u off pace b2b h

/-- Witness for C2 (amended) at `kind = "pts"`, back-to-back flagged. -/
theorem C2_player_proj_formula_witness :
    player_proj "pts" 25 (3/10) 116 101 true
      = 25 * (1 + (3/10) * stat_weight_spec "pts") * ((116 : ℚ) / 114)
        * ((101 : ℚ) / 100) * (if true then 0.97 else 1) :=
  C2_player_proj_formula "pts" 25 (3/10) 116 101 true (by decide)

/-- C8 counterexample: a stat kind outside the supported set does not fail
with an `UnsupportedStat` error — the code's `else` branch silently falls
back to `proj = base`, so the projection for the unknown kind `"blocks"`
is an ordinary number. -/
theorem C8_counterexample :
    player_proj "blocks" 4 (3/10) 114 100 false = 4 := by
  simp [player_proj]

/-- C8 (amended): for a stat kind outside the supported set the projection
does not fail; it falls through to `proj = base` and then applies the
team-offense, pace, and back-to-back factors. -/
theorem C8_unknown_stat_fallback (stat_choice : String) (base u off pace : ℚ)
    (b2b : Bool) (h : stat_choice ∉ supportedStats) :
    player_proj stat_choice base u off pace b2b
      = base * (off / 114) * (pace / 100) * (if b2b then 0.97 else 1) := by
  simp only [supportedStats, List.mem_cons, List.not_mem_nil, or_false,
    not_or] at h
  obtain ⟨h1, h2, h3, h4, h5⟩ := h
  cases b2b <;> (simp [player_proj, h1, h2, h3, h4, h5]; try ring)

/-- Witness for C8 (amended) at the unknown kind `"blocks"`. -/
theorem C8_unknown_stat_fallback_witness :
    ("blocks" ∉ supportedStats)
    ∧ player_proj "blocks" 4 (3/10) 114 100 true
      = 4 * ((114 : ℚ) / 114) * ((100 : ℚ) / 100) * (if true then 0.97 else 1) :=
  ⟨by decide, C8_unknown_stat_fallback "blocks" 4 (3/10) 114 100 true (by decide)⟩

/-- C9: for every supported stat kind, nonnegative base average, nonnegative
team-offense and pace values, and fixed back-to-back flag, the player
projection is monotonically nondecreasing in the nonnegative usage value. -/
theorem C9_monotone_in_usage (stat_choice : String) (base u1 u2 off pace : ℚ)
    (b2b : Bool) (hstat : stat_choice ∈ supportedStats) (hbase : 0 ≤ base)
    (hu1 : 0 ≤ u1) (hu : u1 ≤ u2) (hoff : 0 ≤ off) (hpace : 0 ≤ pace) :
    player_proj stat_choice base u1 off pace b2b
      ≤ player_proj stat_choice base u2 off pace b2b := by
  rw [player_proj_eq stat_choice base u1 off pace b2b hstat,
    player_proj_eq stat_choice base u2 off pace b2b hstat]
  have hw : 0 ≤ stat_weight_spec stat_choice := by
    simp only [supportedStats, List.mem_cons, List.not_mem_nil, or_false] at hstat
    rcases hstat with rfl | rfl | rfl | rfl | rfl <;> simp [stat_weight_spec] <;>
      norm_num
  have hb2b : (0 : ℚ) ≤ (if b2b then 0.97 else 1) := by cases b2b <;> norm_num
  have hcore : base * (1 + u1 * stat_weight_spec stat_choice)
      ≤ base * (1 + u2 * stat_weight_spec stat_choice) := by
    apply mul_le_mul_of_nonneg_left _ hbase
    have hmul := mul_le_mul_of_nonneg_right hu hw
    linarith
  apply mul_le_mul_of_nonneg_right _ hb2b
  apply mul_le_mul_of_nonneg_right _ (div_nonneg hpace (by norm_num))
  apply mul_le_mul_of_nonneg_right _ (div_nonneg hoff (by norm_num))
  exact hcore

/-- Witness for C9: raising usage from `0` to `1/2` for a points projection
does not lower it. -/
theorem C9_monotone_in_usage_witness :
    player_proj "pts" 25 0 114 100 false
      ≤ player_proj "pts" 25 (1/2) 114 100 false :=
  C9_monotone_in_usage "pts" 25 0 (1/2) 114 100 false (by decide)
    (by norm_num) (by norm_num) (by norm_num) (by norm_num) (by norm_num)

end NbaDashboard
